import Mathlib

/-!
Verification development for the SimpleDyno web application's core
(`src/app.py`): the `.sdp` file parser `parse_sdp_file`, the binning
aggregator `aggregate_data_by_rpm`, and the report builder
`process_file_content`.

The embedding is shallow: Python floats are modelled as exact rationals
(ℚ), Python `round` (banker's rounding, half-to-even) as `pyRound`,
Python strings as Lean `String` manipulated through structural
`List Char` helpers mirroring `str.strip`, `str.split`,
`str.startswith` and `str.replace`, and the input text as its list of
lines (Python `str.splitlines`).
-/

deriving instance DecidableEq for Except

namespace SimpleDyno

/-- ASCII whitespace recognized by Python's `str.strip()` / `str.split()`. -/
def isWs (c : Char) : Bool :=
  c = ' ' || c = '\t' || c = '\n' || c = '\r' || c = '\x0B' || c = '\x0C'

/-- Drop whitespace from both ends of a character list (Python `str.strip()`). -/
def trimChars (cs : List Char) : List Char :=
  ((cs.dropWhile isWs).reverse.dropWhile isWs).reverse

/-- Python `line.strip()`. -/
def pyStrip (s : String) : String := String.mk (trimChars s.data)

/-- Python `s.startswith(pfx)`. -/
def strStarts (s pfx : String) : Bool := pfx.data.isPrefixOf s.data

/-- Accumulating worker for `pySplit`; `cur` holds the current token reversed. -/
def splitWsAux (cur : List Char) : List Char → List String
  | [] => if cur.isEmpty then [] else [String.mk cur.reverse]
  | c :: rest =>
    if isWs c then
      if cur.isEmpty then splitWsAux [] rest
      else String.mk cur.reverse :: splitWsAux [] rest
    else splitWsAux (c :: cur) rest

/-- Python `line.split()`: split on runs of whitespace, no empty tokens. -/
def pySplit (s : String) : List String := splitWsAux [] s.data

/-- Split a character list at the first occurrence of `c` (Python
`line.split(c, 1)` when `c` occurs in `line`): the part before the first
`c` and the part after it. -/
def splitFirstAt (c : Char) (cs : List Char) : List Char × List Char :=
  ((cs.takeWhile (fun x => x ≠ c)), (cs.dropWhile (fun x => x ≠ c)).drop 1)

/-- Python `s.replace(',', '.')` for a single-character pattern: a character map. -/
def commaToDot (s : String) : String :=
  String.mk (s.data.map (fun c => if c = ',' then '.' else c))

/-- Value of a digit string (most significant first), e.g. `['1','2'] ↦ 12`. -/
def digitsToNat (ds : List Char) : Nat :=
  ds.foldl (fun a c => 10 * a + (c.toNat - 48)) 0

/-- Optional sign at the start of a float literal or exponent. -/
def readSignInt : List Char → ℤ × List Char
  | '+' :: t => (1, t)
  | '-' :: t => ((-1 : ℤ), t)
  | t => (1, t)

/-- Parse the optional exponent part (`e`/`E`, optional sign, digits) that may
follow the mantissa; anything else trailing makes the literal invalid. -/
def readExp : List Char → Option ℤ
  | [] => some 0
  | c :: t =>
    if c = 'e' ∨ c = 'E' then
      let s := readSignInt t
      let d := s.2.span (fun ch => ch.isDigit)
      if d.1 = [] ∨ d.2 ≠ [] then none
      else some (s.1 * (digitsToNat d.1 : ℤ))
    else none

/-- Python's builtin `float()` on a finite decimal literal
(`[sign] digits [. digits] [(e|E) [sign] digits]`, with at least one mantissa
digit), returned in integer parts: the signed mantissa read without its
decimal point, the number of fractional digits, and the exponent — the
represented value is `pyFloatVal` of the parts. Special values (`inf`,
`nan`) and underscore separators are not modelled; they do not occur in
dynamometer exports. -/
def pyFloatCore (cs : List Char) : Option (ℤ × ℕ × ℤ) :=
  let s := readSignInt cs
  let ipr := s.2.span (fun c => c.isDigit)
  match ipr.2 with
  | '.' :: t =>
    let fpr := t.span (fun c => c.isDigit)
    if ipr.1 = [] ∧ fpr.1 = [] then none
    else
      match readExp fpr.2 with
      | none => none
      | some ex => some (s.1 * (digitsToNat (ipr.1 ++ fpr.1) : ℤ), fpr.1.length, ex)
  | rest =>
    if ipr.1 = [] then none
    else
      match readExp rest with
      | none => none
      | some ex => some (s.1 * (digitsToNat ipr.1 : ℤ), 0, ex)

/-- The rational value of a parsed float literal: `mantissa × 10^exponent`
scaled down by the number of fractional digits. -/
def pyFloatVal (t : ℤ × ℕ × ℤ) : ℚ := (t.1 : ℚ) * 10 ^ t.2.2 / 10 ^ t.2.1

/-- Python `float(s)` on a string. -/
def pyFloat (s : String) : Option ℚ := (pyFloatCore s.data).map pyFloatVal

/-- The numeric decode applied to every data token in `parse_sdp_file`:
`float(token.replace(',', '.'))` (src/app.py lines 56, 60, 61). -/
def tokenFloat (s : String) : Option ℚ := pyFloat (commaToDot s)

/-- Python `round(q)`: round half to even (banker's rounding). -/
def pyRound (q : ℚ) : ℤ :=
  if q - ⌊q⌋ < 1 / 2 then ⌊q⌋
  else if (1 : ℚ) / 2 < q - ⌊q⌋ then ⌊q⌋ + 1
  else if ⌊q⌋ % 2 = 0 then ⌊q⌋ else ⌊q⌋ + 1

/-- Python `round(q, 2)`: round to two decimal places, half to even. -/
def round2 (q : ℚ) : ℚ := (pyRound (q * 100) : ℚ) / 100

/-- One decoded measurement (a `performance_data` entry of src/app.py
lines 58-62): `rpm` rounded from rad/s × 9.5493, `torque` in N·m rounded to
two decimals, `hp` from watts / 745.7 rounded to two decimals. -/
structure Sample where
  rpm : ℤ
  torque : ℚ
  hp : ℚ
deriving DecidableEq

/-- The two fatal parse failures of `parse_sdp_file`: the `flash(...); return
None` at src/app.py line 49 (missing required column, the flashed message
carries the column name) and at line 66 (no data above 5500 RPM). -/
inductive ParseError where
  | missingColumn (name : String)
  | noDataAboveThreshold
deriving DecidableEq

/-- The successful result of `parse_sdp_file` (src/app.py line 67):
`{"config": config_data, "data": performance_data}`. -/
structure Parsed where
  config : List (String × String)
  data : List Sample
deriving DecidableEq

/-- The four recognized header keys (src/app.py line 22). -/
def header_keys : List String :=
  ["Gear_Ratio", "Roller_Diameter", "Roller_Mass", "Actual_MOI"]

/-- Python `dict` insertion on an insertion-ordered association list:
an existing key keeps its position and gets the new value, a new key is
appended. -/
def dictInsert (m : List (String × String)) (k v : String) : List (String × String) :=
  if m.any (fun p => p.1 = k) then m.map (fun p => if p.1 = k then (k, v) else p)
  else m ++ [(k, v)]

/-- The header scan of `parse_sdp_file` (src/app.py lines 23-29): for each
line containing a colon, split on the first colon; if the trimmed key is
recognized, record the trimmed value (later occurrences overwrite); stop
after a line whose trimmed content is the data sentinel. -/
def extractConfig (acc : List (String × String)) : List String → List (String × String)
  | [] => acc
  | l :: rest =>
    let acc2 :=
      if l.data.any (fun c => c = ':') then
        let kv := splitFirstAt ':' l.data
        let k := String.mk (trimChars kv.1)
        if header_keys.contains k then dictInsert acc k (String.mk (trimChars kv.2))
        else acc
      else acc
    if pyStrip l = "PRIMARY_CHANNEL_CURVE_FIT_DATA" then acc2
    else extractConfig acc2 rest

/-- The three required data column names (src/app.py line 33). -/
def requiredCols : List String :=
  ["RPM1_Motor_(rad/s)", "Motor_Torque_(N.m)", "Power_(W)"]

/-- Resolution of the three required column positions (src/app.py line 46):
`headers.index(...)` evaluated left to right, so the first absent required
name raises, which line 49 turns into the fatal missing-column failure. -/
def resolveCols (headers : List String) : Except ParseError (Nat × Nat × Nat) :=
  if "RPM1_Motor_(rad/s)" ∈ headers then
    if "Motor_Torque_(N.m)" ∈ headers then
      if "Power_(W)" ∈ headers then
        .ok (headers.indexOf "RPM1_Motor_(rad/s)", headers.indexOf "Motor_Torque_(N.m)",
          headers.indexOf "Power_(W)")
      else .error (.missingColumn "Power_(W)")
    else .error (.missingColumn "Motor_Torque_(N.m)")
  else .error (.missingColumn "RPM1_Motor_(rad/s)")

/-- The row decode of `parse_sdp_file` (src/app.py lines 53-63): skip short
rows; parse the RPM token (comma→dot, `float`), convert rad/s → RPM with
9.5493 and drop the row below 5500; parse the torque and power tokens the
same way, converting watts → hp with 745.7; emit the sample with `rpm`
rounded to an integer and `torque`, `hp` rounded to two decimals. Any parse
failure skips the row. -/
def decodeRow (ri ti pwi : Nat) (vals : List String) : Option Sample :=
  if vals.length ≤ max ri (max ti pwi) then none
  else
    match tokenFloat (vals.getD ri "") with
    | none => none
    | some rv =>
      let rpm := rv * (95493 / 10000 : ℚ)
      if rpm < 5500 then none
      else
        match tokenFloat (vals.getD ti ""), tokenFloat (vals.getD pwi "") with
        | some tv, some pv =>
          some ⟨pyRound rpm, round2 tv, round2 (pv / (7457 / 10))⟩
        | _, _ => none

/-- The data scan of `parse_sdp_file` (src/app.py lines 36-63): enter data
mode at the sentinel, stop at a line starting with the coast-down marker,
resolve columns at the first `Time_(Sec)` header line (fatal failure when a
required column is absent), and decode every later non-empty line as a data
row. `cols = some (ri, ti, pwi)` plays the role of `header_found` together
with the resolved indices. -/
def scanData (cols : Option (Nat × Nat × Nat)) (started : Bool) :
    List String → Except ParseError (List Sample)
  | [] => .ok []
  | l :: rest =>
    let line := pyStrip l
    if line = "PRIMARY_CHANNEL_CURVE_FIT_DATA" then scanData cols true rest
    else if started = false then scanData cols started rest
    else if strStarts line "FULL_SET_COAST_DOWN_FIT_DATA" then .ok []
    else
      match cols with
      | none =>
        if strStarts line "Time_(Sec)" then
          match resolveCols (pySplit line) with
          | .error e => .error e
          | .ok c => scanData (some c) started rest
        else scanData none started rest
      | some c =>
        if line = "" then scanData cols started rest
        else
          match decodeRow c.1 c.2.1 c.2.2 (pySplit line) with
          | some s => (scanData cols started rest).map (fun ds => s :: ds)
          | none => scanData cols started rest

/-- `parse_sdp_file` (src/app.py lines 15-67) on the list of input lines
(`file_content.splitlines()`): header extraction and data scan are two
independent passes; an empty surviving sample list is the fatal
no-data-above-threshold failure (line 65-66). -/
def parse_sdp_file (lines : List String) : Except ParseError Parsed :=
  match scanData none false lines with
  | .error e => .error e
  | .ok ds =>
    if ds = [] then .error .noDataAboveThreshold
    else .ok ⟨extractConfig [] lines, ds⟩

/-- The data-table locator's view of the column header row: the first line
in data mode (after the `PRIMARY_CHANNEL_CURVE_FIT_DATA` sentinel, before a
`FULL_SET_COAST_DOWN_FIT_DATA` terminator) whose trimmed content starts
with `Time_(Sec)` (src/app.py line 43), returned trimmed. Mirrors the
branch structure of `scanData` before any column resolution. -/
def findHeaderRow (started : Bool) : List String → Option String
  | [] => none
  | l :: rest =>
    let line := pyStrip l
    if line = "PRIMARY_CHANNEL_CURVE_FIT_DATA" then findHeaderRow true rest
    else if started = false then findHeaderRow started rest
    else if strStarts line "FULL_SET_COAST_DOWN_FIT_DATA" then none
    else if strStarts line "Time_(Sec)" then some line
    else findHeaderRow started rest

/-- One aggregated output bin of `aggregate_data_by_rpm` (src/app.py
line 84). -/
structure RpmBin where
  rpm : ℤ
  torque : ℚ
  hp : ℚ
deriving DecidableEq

/-- `math.floor(point['rpm'] / increment) * increment` (src/app.py line 74). -/
def binKey (w : ℤ) (p : Sample) : ℤ := ⌊(p.rpm : ℚ) / (w : ℚ)⌋ * w

/-- `aggregate_data_by_rpm` (src/app.py lines 69-85): group samples by
`binKey`, then emit, in ascending key order, one bin per distinct key with
the two-decimal-rounded arithmetic means of the group's torque and hp.
The Python `dict` keyed by `bin_key` holds, per key, the list of matching
samples in input order — here recovered as a `filter`; `sorted(bins.keys())`
is the ascending sort of the distinct keys. -/
def aggregate_data_by_rpm (data : List Sample) (w : ℤ) : List RpmBin :=
  if data = [] then []
  else
    (((data.map (binKey w)).dedup).insertionSort (· ≤ ·)).map (fun k =>
      let grp := data.filter (fun p => binKey w p = k)
      { rpm := k
        torque := round2 ((grp.map Sample.torque).sum / (grp.length : ℚ))
        hp := round2 ((grp.map Sample.hp).sum / (grp.length : ℚ)) })

/-- Python `max(data, key=f)` (src/app.py lines 94-95): linear scan keeping
the current maximum, replacing it only on a strictly greater key, so ties
keep the first occurrence; `none` models the `ValueError` on an empty list. -/
def pyMaxBy (f : Sample → ℚ) : List Sample → Option Sample
  | [] => none
  | x :: xs => some (xs.foldl (fun cur y => if f cur < f y then y else cur) x)

/-- The result dictionary of `process_file_content` (src/app.py
lines 92-100). -/
structure Run where
  config : List (String × String)
  data_points_count : Nat
  peak_power : Sample
  peak_torque : Sample
  torque_data : List (ℤ × ℚ)
  hp_data : List (ℤ × ℚ)
  raw_data : List Sample
  aggregated_data : List RpmBin
deriving DecidableEq

/-- `process_file_content` (src/app.py lines 87-100): parse, reject a failed
or empty parse (`if not parsed or not parsed.get("data")`), then build the
report with peaks, chart projections and the 500-wide aggregation. The
unreachable `| _, _ => none` arm models the `ValueError` Python's `max`
would raise on an empty list. -/
def process_file_content (content : List String) : Option Run :=
  match parse_sdp_file content with
  | .error _ => none
  | .ok parsed =>
    if parsed.data = [] then none
    else
      match pyMaxBy Sample.hp parsed.data, pyMaxBy Sample.torque parsed.data with
      | some pp, some pt =>
        some { config := parsed.config
               data_points_count := parsed.data.length
               peak_power := pp
               peak_torque := pt
               torque_data := parsed.data.map (fun r => (r.rpm, r.torque))
               hp_data := parsed.data.map (fun r => (r.rpm, r.hp))
               raw_data := parsed.data
               aggregated_data := aggregate_data_by_rpm parsed.data 500 }
      | _, _ => none

/-- The concrete input of the spec's first scenario (§8): two header lines,
the data sentinel, the full column header row, and one data row. -/
def demoLines : List String :=
  ["Gear_Ratio: 4.10", "Roller_Diameter: 8.0", "PRIMARY_CHANNEL_CURVE_FIT_DATA",
   "Time_(Sec) RPM1_Motor_(rad/s) Motor_Torque_(N.m) Power_(W)", "0.1 600.0 50.0 3000.0"]

/-- The sample decoded from the row `0.1 600.0 50.0 3000.0`:
`rpm = round(600 × 9.5493) = 5730`, `torque = 50.0`,
`hp = round(3000 / 745.7, 2) = 4.02 = 201/50`. -/
def demoSample : Sample := ⟨5730, 50, 201 / 50⟩

/-- The parse result for `demoLines`. -/
def demoParsed : Parsed :=
  ⟨[("Gear_Ratio", "4.10"), ("Roller_Diameter", "8.0")], [demoSample]⟩

/-- The report `process_file_content` builds from `demoLines`: one sample,
both peaks equal to it, and a single aggregated 500-wide bin with lower
edge `⌊5730/500⌋ × 500 = 5500`. -/
def demoRun : Run :=
  { config := [("Gear_Ratio", "4.10"), ("Roller_Diameter", "8.0")]
    data_points_count := 1
    peak_power := demoSample
    peak_torque := demoSample
    torque_data := [(5730, 50)]
    hp_data := [(5730, 201 / 50)]
    raw_data := [demoSample]
    aggregated_data := [⟨5500, 50, 201 / 50⟩] }

/-!  Concrete evaluation lemmas for the demo input. -/

lemma demo_decode : decodeRow 1 2 3 ["0.1", "600.0", "50.0", "3000.0"] = some demoSample := by
  have h1 : pyFloatCore (commaToDot "600.0").data = some (6000, 1, 0) := by decide
  have h2 : pyFloatCore (commaToDot "50.0").data = some (500, 1, 0) := by decide
  have h3 : pyFloatCore (commaToDot "3000.0").data = some (30000, 1, 0) := by decide
  have f1 : (⌊(286479 / 50 : ℚ)⌋ : ℤ) = 5729 := by
    rw [Int.floor_eq_iff]
    norm_num
  have f3 : (⌊(3000000 / 7457 : ℚ)⌋ : ℤ) = 402 := by
    rw [Int.floor_eq_iff]
    norm_num
  simp [decodeRow, tokenFloat, pyFloat, h1, h2, h3, pyFloatVal, pyRound, round2, demoSample]
  norm_num [Int.fract, f1, f3]

lemma demo_scan : scanData none false demoLines = .ok [demoSample] := by
  have hsplit : pySplit (pyStrip "0.1 600.0 50.0 3000.0") = ["0.1", "600.0", "50.0", "3000.0"] := by
    decide
  have hres : resolveCols
      (pySplit (pyStrip "Time_(Sec) RPM1_Motor_(rad/s) Motor_Torque_(N.m) Power_(W)")) =
      .ok (1, 2, 3) := by decide
  simp +decide [demoLines, scanData, hres, hsplit, demo_decode, Except.map]

lemma demo_parse : parse_sdp_file demoLines = .ok demoParsed := by
  have hcfg : extractConfig [] demoLines =
      [("Gear_Ratio", "4.10"), ("Roller_Diameter", "8.0")] := by decide
  simp [parse_sdp_file, demo_scan, hcfg, demoParsed]

end SimpleDyno

namespace SimpleDyno

lemma resolveCols_missing (hs : List String) (h : ∃ n ∈ requiredCols, n ∉ hs) :
    ∃ m, resolveCols hs = .error (.missingColumn m) ∧ m ∈ requiredCols ∧ m ∉ hs := by
  by_cases h1 : "RPM1_Motor_(rad/s)" ∈ hs
  · by_cases h2 : "Motor_Torque_(N.m)" ∈ hs
    · by_cases h3 : "Power_(W)" ∈ hs
      · exfalso
        obtain ⟨n, hn, hnot⟩ := h
        simp [requiredCols] at hn
        rcases hn with rfl | rfl | rfl <;> contradiction
      · refine ⟨"Power_(W)", ?_, by simp [requiredCols], h3⟩
        simp [resolveCols, h1, h2, h3]
    · refine ⟨"Motor_Torque_(N.m)", ?_, by simp [requiredCols], h2⟩
      simp [resolveCols, h1, h2]
  · exact ⟨"RPM1_Motor_(rad/s)", by simp [resolveCols, h1], by simp [requiredCols], h1⟩

lemma scanData_missing :
    ∀ (lines : List String) (b : Bool) (hdr : String),
      findHeaderRow b lines = some hdr →
      (∃ n ∈ requiredCols, n ∉ pySplit hdr) →
      ∃ m, scanData none b lines = .error (.missingColumn m) ∧
        m ∈ requiredCols ∧ m ∉ pySplit hdr := by
  intro lines
  induction lines with
  | nil => intro b hdr h; simp [findHeaderRow] at h
  | cons l rest ih =>
    intro b hdr hf hmiss
    simp only [findHeaderRow] at hf
    simp only [scanData]
    by_cases hs : pyStrip l = "PRIMARY_CHANNEL_CURVE_FIT_DATA"
    · rw [if_pos hs] at hf ⊢
      exact ih true hdr hf hmiss
    · rw [if_neg hs] at hf ⊢
      by_cases hb : b = false
      · rw [if_pos hb] at hf ⊢
        exact ih b hdr hf hmiss
      · rw [if_neg hb] at hf ⊢
        by_cases ht : strStarts (pyStrip l) "FULL_SET_COAST_DOWN_FIT_DATA" = true
        · rw [if_pos ht] at hf
          exact absurd hf (by simp)
        · rw [if_neg ht] at hf ⊢
          by_cases hT : strStarts (pyStrip l) "Time_(Sec)" = true
          · rw [if_pos hT] at hf
            rw [if_pos hT]
            obtain rfl : pyStrip l = hdr := by injection hf
            obtain ⟨m, hm, hm1, hm2⟩ := resolveCols_missing (pySplit (pyStrip l)) hmiss
            rw [hm]
            exact ⟨m, rfl, hm1, hm2⟩
          · rw [if_neg hT] at hf ⊢
            exact ih b hdr hf hmiss

lemma scanData_noHeader :
    ∀ (lines : List String) (b : Bool),
      findHeaderRow b lines = none → scanData none b lines = .ok [] := by
  intro lines
  induction lines with
  | nil => intro b _; simp [scanData]
  | cons l rest ih =>
    intro b hf
    simp only [findHeaderRow] at hf
    simp only [scanData]
    by_cases hs : pyStrip l = "PRIMARY_CHANNEL_CURVE_FIT_DATA"
    · rw [if_pos hs] at hf ⊢
      exact ih true hf
    · rw [if_neg hs] at hf ⊢
      by_cases hb : b = false
      · rw [if_pos hb] at hf ⊢
        exact ih b hf
      · rw [if_neg hb] at hf ⊢
        by_cases ht : strStarts (pyStrip l) "FULL_SET_COAST_DOWN_FIT_DATA" = true
        · rw [if_pos ht]
        · rw [if_neg ht] at hf ⊢
          by_cases hT : strStarts (pyStrip l) "Time_(Sec)" = true
          · rw [if_pos hT] at hf
            simp at hf
          · rw [if_neg hT] at hf ⊢
            exact ih b hf

end SimpleDyno

namespace SimpleDyno

/-- C1: if the data-section column header row (the first `Time_(Sec)` line
after the sentinel) lacks a required column name, the parse fails with a
missing-column error naming a column that is indeed absent, and no Report
is produced. -/
theorem C1_missing_column_fatal (lines : List String) (hdr : String)
    (hfind : findHeaderRow false lines = some hdr)
    (hmiss : ∃ n ∈ requiredCols, n ∉ pySplit hdr) :
    ∃ m, parse_sdp_file lines = .error (.missingColumn m) ∧
      m ∈ requiredCols ∧ m ∉ pySplit hdr := by
  obtain ⟨m, hscan, h1, h2⟩ := scanData_missing lines false hdr hfind hmiss
  exact ⟨m, by simp [parse_sdp_file, hscan], h1, h2⟩

theorem C1_missing_column_fatal_witness :
    ∃ m, parse_sdp_file ["PRIMARY_CHANNEL_CURVE_FIT_DATA", "Time_(Sec) Power_(W)"] =
        .error (.missingColumn m) ∧
      m ∈ requiredCols ∧ m ∉ pySplit "Time_(Sec) Power_(W)" :=
  C1_missing_column_fatal ["PRIMARY_CHANNEL_CURVE_FIT_DATA", "Time_(Sec) Power_(W)"]
    "Time_(Sec) Power_(W)" (by decide) ⟨"RPM1_Motor_(rad/s)", by decide, by decide⟩

/-- C3: an empty surviving sample list — in particular whenever no data
section or `Time_(Sec)` header row is found — makes the parse fail with the
no-data error, and a successful parse always carries a non-empty sample
list (never a partial Report). -/
theorem C3_no_data_failure (lines : List String) :
    (scanData none false lines = .ok [] →
      parse_sdp_file lines = .error .noDataAboveThreshold) ∧
    (findHeaderRow false lines = none →
      parse_sdp_file lines = .error .noDataAboveThreshold) ∧
    (∀ r, parse_sdp_file lines = .ok r → r.data ≠ []) := by
  refine ⟨fun h => by simp [parse_sdp_file, h],
    fun h => by simp [parse_sdp_file, scanData_noHeader lines false h], ?_⟩
  intro r hr
  unfold parse_sdp_file at hr
  cases hscan : scanData none false lines with
  | error e =>
    rw [hscan] at hr
    simp at hr
  | ok ds =>
    rw [hscan] at hr
    simp only [] at hr
    by_cases hd : ds = []
    · rw [if_pos hd] at hr
      simp at hr
    · rw [if_neg hd] at hr
      obtain rfl : Parsed.mk (extractConfig [] lines) ds = r := by injection hr
      exact hd

theorem C3_no_data_failure_witness :
    parse_sdp_file ["PRIMARY_CHANNEL_CURVE_FIT_DATA",
        "Time_(Sec) RPM1_Motor_(rad/s) Motor_Torque_(N.m) Power_(W)"] =
      .error .noDataAboveThreshold ∧
    parse_sdp_file ["no data section in sight"] = .error .noDataAboveThreshold :=
  ⟨(C3_no_data_failure _).1 (by decide), (C3_no_data_failure _).2.1 (by decide)⟩

end SimpleDyno

namespace SimpleDyno

lemma pyRound_ge (n : ℤ) (q : ℚ) (h : (n : ℚ) ≤ q) : n ≤ pyRound q := by
  have hn : n ≤ ⌊q⌋ := Int.le_floor.mpr h
  unfold pyRound
  split_ifs <;> omega

lemma decodeRow_rpm_ge (ri ti pwi : Nat) (vals : List String) (s : Sample)
    (h : decodeRow ri ti pwi vals = some s) : (5500 : ℤ) ≤ s.rpm := by
  unfold decodeRow at h
  by_cases h1 : vals.length ≤ max ri (max ti pwi)
  · rw [if_pos h1] at h
    exact absurd h (by simp)
  · rw [if_neg h1] at h
    cases htok : tokenFloat (vals.getD ri "") with
    | none =>
      rw [htok] at h
      exact absurd h (by simp)
    | some rv =>
      rw [htok] at h
      simp only [] at h
      by_cases hlt : rv * (95493 / 10000 : ℚ) < 5500
      · rw [if_pos hlt] at h
        exact absurd h (by simp)
      · rw [if_neg hlt] at h
        cases ht2 : tokenFloat (vals.getD ti "") with
        | none =>
          rw [ht2] at h
          exact absurd h (by simp)
        | some tv =>
          rw [ht2] at h
          cases ht3 : tokenFloat (vals.getD pwi "") with
          | none =>
            rw [ht3] at h
            exact absurd h (by simp)
          | some pv =>
            rw [ht3] at h
            simp only [] at h
            obtain rfl : Sample.mk (pyRound (rv * (95493 / 10000 : ℚ))) (round2 tv)
                (round2 (pv / (7457 / 10))) = s := by injection h
            exact pyRound_ge 5500 _ (by exact_mod_cast not_lt.mp hlt)

end SimpleDyno

namespace SimpleDyno

lemma scanData_rpm_ge :
    ∀ (lines : List String) (cols : Option (Nat × Nat × Nat)) (b : Bool) (ds : List Sample),
      scanData cols b lines = .ok ds → ∀ s ∈ ds, (5500 : ℤ) ≤ s.rpm := by
  intro lines
  induction lines with
  | nil =>
    intro cols b ds h s hs
    simp only [scanData] at h
    cases h
    simp at hs
  | cons l rest ih =>
    intro cols b ds h s hs
    simp only [scanData] at h
    by_cases h1 : pyStrip l = "PRIMARY_CHANNEL_CURVE_FIT_DATA"
    · rw [if_pos h1] at h
      exact ih _ _ _ h s hs
    · rw [if_neg h1] at h
      by_cases h2 : b = false
      · rw [if_pos h2] at h
        exact ih _ _ _ h s hs
      · rw [if_neg h2] at h
        by_cases h3 : strStarts (pyStrip l) "FULL_SET_COAST_DOWN_FIT_DATA" = true
        · rw [if_pos h3] at h
          cases h
          simp at hs
        · rw [if_neg h3] at h
          cases cols with
          | none =>
            simp only [] at h
            by_cases h4 : strStarts (pyStrip l) "Time_(Sec)" = true
            · rw [if_pos h4] at h
              cases hres : resolveCols (pySplit (pyStrip l)) with
              | error e =>
                rw [hres] at h
                exact absurd h (by simp)
              | ok c =>
                rw [hres] at h
                exact ih _ _ _ h s hs
            · rw [if_neg h4] at h
              exact ih _ _ _ h s hs
          | some c =>
            simp only [] at h
            by_cases h5 : pyStrip l = ""
            · rw [if_pos h5] at h
              exact ih _ _ _ h s hs
            · rw [if_neg h5] at h
              cases hdec : decodeRow c.1 c.2.1 c.2.2 (pySplit (pyStrip l)) with
              | none =>
                rw [hdec] at h
                exact ih _ _ _ h s hs
              | some smp =>
                rw [hdec] at h
                cases hrec : scanData (some c) b rest with
                | error e =>
                  rw [hrec] at h
                  exact absurd h (by simp [Except.map])
                | ok ds2 =>
                  rw [hrec] at h
                  simp only [Except.map] at h
                  cases h
                  rcases List.mem_cons.mp hs with rfl | hs2
                  · exact decodeRow_rpm_ge c.1 c.2.1 c.2.2 (pySplit (pyStrip l)) s hdec
                  · exact ih _ _ _ hrec s hs2

end SimpleDyno

namespace SimpleDyno

lemma tok500 : tokenFloat "500.0" = some 500 := by
  have h : pyFloatCore (commaToDot "500.0").data = some (5000, 1, 0) := by decide
  simp [tokenFloat, pyFloat, h, pyFloatVal]
  norm_num

/-- C2: every sample of a successful parse has `rpm ≥ 5500`, and a row whose
RPM token decodes to a value below the threshold after the 9.5493 rad/s→RPM
conversion is discarded (decodes to no sample). -/
theorem C2_rpm_threshold_invariant :
    (∀ (lines : List String) (parsed : Parsed), parse_sdp_file lines = .ok parsed →
      ∀ s ∈ parsed.data, (5500 : ℤ) ≤ s.rpm) ∧
    (∀ (ri ti pwi : Nat) (vals : List String) (rv : ℚ),
      tokenFloat (vals.getD ri "") = some rv → rv * (95493 / 10000 : ℚ) < 5500 →
      decodeRow ri ti pwi vals = none) := by
  constructor
  · intro lines parsed hp s hs
    unfold parse_sdp_file at hp
    cases hscan : scanData none false lines with
    | error e =>
      rw [hscan] at hp
      simp at hp
    | ok ds =>
      rw [hscan] at hp
      simp only [] at hp
      by_cases hd : ds = []
      · rw [if_pos hd] at hp
        simp at hp
      · rw [if_neg hd] at hp
        obtain rfl : Parsed.mk (extractConfig [] lines) ds = parsed := by injection hp
        exact scanData_rpm_ge lines none false ds hscan s hs
  · intro ri ti pwi vals rv htok hlt
    unfold decodeRow
    by_cases h1 : vals.length ≤ max ri (max ti pwi)
    · rw [if_pos h1]
    · rw [if_neg h1, htok]
      simp only []
      rw [if_pos hlt]

theorem C2_rpm_threshold_invariant_witness :
    (5500 : ℤ) ≤ demoSample.rpm ∧ decodeRow 1 2 3 ["0", "500.0", "7", "8"] = none := by
  constructor
  · exact C2_rpm_threshold_invariant.1 demoLines demoParsed demo_parse demoSample
      (by simp [demoParsed])
  · exact C2_rpm_threshold_invariant.2 1 2 3 ["0", "500.0", "7", "8"] 500 tok500 (by norm_num)

end SimpleDyno

namespace SimpleDyno

lemma aggregate_eq (data : List Sample) (w : ℤ) (hd : data ≠ []) :
    aggregate_data_by_rpm data w =
      (((data.map (binKey w)).dedup).insertionSort (· ≤ ·)).map (fun k =>
        { rpm := k
          torque := round2 (((data.filter (fun p => binKey w p = k)).map Sample.torque).sum /
            ((data.filter (fun p => binKey w p = k)).length : ℚ))
          hp := round2 (((data.filter (fun p => binKey w p = k)).map Sample.hp).sum /
            ((data.filter (fun p => binKey w p = k)).length : ℚ)) }) := by
  simp [aggregate_data_by_rpm, hd]

/-- C4: for positive bin widths the aggregator's bin keys are strictly
ascending (no duplicates), every emitted bin averages a non-empty group,
each bin's torque and hp are the two-decimal-rounded arithmetic means of
exactly the samples whose `⌊rpm/width⌋·width` equals the bin key, and the
emitted keys are exactly the keys realized by the input samples. -/
theorem C4_aggregate_bins_correct (data : List Sample) (w : ℤ) (hw : 0 < w) :
    List.Pairwise (· < ·) ((aggregate_data_by_rpm data w).map RpmBin.rpm) ∧
    (∀ b ∈ aggregate_data_by_rpm data w,
      data.filter (fun p => binKey w p = b.rpm) ≠ [] ∧
      b.torque = round2 (((data.filter (fun p => binKey w p = b.rpm)).map Sample.torque).sum /
        ((data.filter (fun p => binKey w p = b.rpm)).length : ℚ)) ∧
      b.hp = round2 (((data.filter (fun p => binKey w p = b.rpm)).map Sample.hp).sum /
        ((data.filter (fun p => binKey w p = b.rpm)).length : ℚ))) ∧
    (∀ k : ℤ, (∃ b ∈ aggregate_data_by_rpm data w, b.rpm = k) ↔
      ∃ p ∈ data, binKey w p = k) := by
  by_cases hd : data = []
  · subst hd
    simp [aggregate_data_by_rpm]
  · have hsort : List.Sorted (· ≤ ·) (((data.map (binKey w)).dedup).insertionSort (· ≤ ·)) :=
      List.sorted_insertionSort _ _
    have hnd : (((data.map (binKey w)).dedup).insertionSort (· ≤ ·)).Nodup :=
      (List.perm_insertionSort _ _).nodup_iff.mpr (List.nodup_dedup _)
    have hmem : ∀ k : ℤ, k ∈ ((data.map (binKey w)).dedup).insertionSort (· ≤ ·) ↔
        ∃ p ∈ data, binKey w p = k := by
      intro k
      rw [(List.perm_insertionSort _ _).mem_iff, List.mem_dedup, List.mem_map]
    refine ⟨?_, ?_, ?_⟩
    · rw [aggregate_eq data w hd, List.map_map]
      have : (RpmBin.rpm ∘ fun k => (⟨k, round2 (((data.filter (fun p => binKey w p = k)).map
          Sample.torque).sum / ((data.filter (fun p => binKey w p = k)).length : ℚ)),
          round2 (((data.filter (fun p => binKey w p = k)).map Sample.hp).sum /
          ((data.filter (fun p => binKey w p = k)).length : ℚ))⟩ : RpmBin)) = id := rfl
      rw [this, List.map_id]
      exact (hsort.and hnd).imp (fun h => lt_of_le_of_ne h.1 h.2)
    · intro b hb
      rw [aggregate_eq data w hd] at hb
      obtain ⟨k, hk, rfl⟩ := List.mem_map.mp hb
      obtain ⟨p, hp, hpk⟩ := (hmem k).mp hk
      refine ⟨List.ne_nil_of_mem (List.mem_filter.mpr ⟨hp, by simp [hpk]⟩), rfl, rfl⟩
    · intro k
      constructor
      · rintro ⟨b, hb, rfl⟩
        rw [aggregate_eq data w hd] at hb
        obtain ⟨k', hk', rfl⟩ := List.mem_map.mp hb
        exact (hmem k').mp hk'
      · intro hx
        refine ⟨⟨k, round2 (((data.filter (fun p => binKey w p = k)).map Sample.torque).sum /
            ((data.filter (fun p => binKey w p = k)).length : ℚ)),
          round2 (((data.filter (fun p => binKey w p = k)).map Sample.hp).sum /
            ((data.filter (fun p => binKey w p = k)).length : ℚ))⟩, ?_, rfl⟩
        rw [aggregate_eq data w hd]
        exact List.mem_map.mpr ⟨k, (hmem k).mpr hx, rfl⟩

end SimpleDyno

namespace SimpleDyno

/-- C5: the aggregator is invariant under permutation of its input sample
sequence — its output is a function of the sample multiset and the (positive)
bin width only. -/
theorem C5_aggregate_perm_invariant (d1 d2 : List Sample) (w : ℤ) (hw : 0 < w)
    (hperm : d1.Perm d2) : aggregate_data_by_rpm d1 w = aggregate_data_by_rpm d2 w := by
  by_cases hd : d1 = []
  · subst hd
    obtain rfl : d2 = [] := hperm.symm.eq_nil
    rfl
  · have hd2 : d2 ≠ [] := fun h => hd ((h ▸ hperm).eq_nil)
    have hkeys : ((d1.map (binKey w)).dedup).insertionSort (· ≤ ·) =
        ((d2.map (binKey w)).dedup).insertionSort (· ≤ ·) := by
      refine List.eq_of_perm_of_sorted ?_ (List.sorted_insertionSort _ _)
        (List.sorted_insertionSort _ _)
      exact ((List.perm_insertionSort _ _).trans ((hperm.map _).dedup)).trans
        (List.perm_insertionSort _ _).symm
    have hfun : (fun k => (⟨k,
        round2 (((d1.filter (fun p => binKey w p = k)).map Sample.torque).sum /
          ((d1.filter (fun p => binKey w p = k)).length : ℚ)),
        round2 (((d1.filter (fun p => binKey w p = k)).map Sample.hp).sum /
          ((d1.filter (fun p => binKey w p = k)).length : ℚ))⟩ : RpmBin)) = (fun k => (⟨k,
        round2 (((d2.filter (fun p => binKey w p = k)).map Sample.torque).sum /
          ((d2.filter (fun p => binKey w p = k)).length : ℚ)),
        round2 (((d2.filter (fun p => binKey w p = k)).map Sample.hp).sum /
          ((d2.filter (fun p => binKey w p = k)).length : ℚ))⟩ : RpmBin)) := by
      funext k
      have hfil := hperm.filter (fun p => binKey w p = k)
      rw [(hfil.map Sample.torque).sum_eq, (hfil.map Sample.hp).sum_eq, hfil.length_eq]
    rw [aggregate_eq d1 w hd, aggregate_eq d2 w hd2, hkeys, hfun]

theorem C5_aggregate_perm_invariant_witness :
    aggregate_data_by_rpm [⟨5990, 2, 3⟩, ⟨5730, 50, 4⟩] 500 =
      aggregate_data_by_rpm [⟨5730, 50, 4⟩, ⟨5990, 2, 3⟩] 500 :=
  C5_aggregate_perm_invariant [⟨5990, 2, 3⟩, ⟨5730, 50, 4⟩] [⟨5730, 50, 4⟩, ⟨5990, 2, 3⟩] 500
    (by decide) (List.Perm.swap _ _ _)

theorem C4_aggregate_bins_correct_witness :
    List.Pairwise (· < ·)
      ((aggregate_data_by_rpm [⟨5730, 50, 4⟩, ⟨5990, 2, 3⟩] 500).map RpmBin.rpm) :=
  (C4_aggregate_bins_correct [⟨5730, 50, 4⟩, ⟨5990, 2, 3⟩] 500 (by decide)).1

end SimpleDyno

namespace SimpleDyno

/-- C6: the spec's concrete scenario — two recognized header lines, the
sentinel, the full column header row and the single row
`0.1 600.0 50.0 3000.0` parse into the config map
`{Gear_Ratio ↦ "4.10", Roller_Diameter ↦ "8.0"}` and exactly one retained
sample with `rpm = 5730`, `torque = 50`, `hp = 201/50 = 4.02`. -/
theorem C6_concrete_scenario :
    parse_sdp_file demoLines =
      .ok ⟨[("Gear_Ratio", "4.10"), ("Roller_Diameter", "8.0")], [⟨5730, 50, 201 / 50⟩]⟩ :=
  demo_parse

/-- C9: the standalone aggregator maps an empty sample sequence to the empty
bin sequence for every bin width, via its explicit empty-input guard. -/
theorem C9_aggregate_empty (w : ℤ) : aggregate_data_by_rpm [] w = [] := rfl

lemma tok1234c : tokenFloat "12,34" = some (617 / 50) := by
  have h : pyFloatCore (commaToDot "12,34").data = some (1234, 2, 0) := by decide
  simp [tokenFloat, pyFloat, h, pyFloatVal]
  norm_num

lemma tok1234d : tokenFloat "12.34" = some (617 / 50) := by
  have h : pyFloatCore (commaToDot "12.34").data = some (1234, 2, 0) := by decide
  simp [tokenFloat, pyFloat, h, pyFloatVal]
  norm_num

/-- C8: a token written with a comma decimal separator decodes to exactly
the same rational as the same token written with a period — the decoder
normalizes commas to periods first — and in particular `"12,34"` and
`"12.34"` both decode to `12.34 = 617/50`. -/
theorem C8_comma_period_equiv :
    (∀ u v : String, v.data = u.data.map (fun c => if c = ',' then '.' else c) →
      tokenFloat u = tokenFloat v) ∧
    tokenFloat "12,34" = some (617 / 50) ∧ tokenFloat "12.34" = some (617 / 50) := by
  refine ⟨?_, tok1234c, tok1234d⟩
  intro u v h
  have hff : ∀ cs : List Char, (cs.map (fun c => if c = ',' then '.' else c)).map
      (fun c => if c = ',' then '.' else c) = cs.map (fun c => if c = ',' then '.' else c) := by
    intro cs
    rw [List.map_map]
    congr 1
    funext c
    by_cases hc : c = ','
    · simp [hc]
    · simp [hc]
  have hcc : commaToDot v = commaToDot u := by
    unfold commaToDot
    rw [h, hff]
  unfold tokenFloat
  rw [hcc]

theorem C8_comma_period_equiv_witness : tokenFloat "12,34" = tokenFloat "12.34" :=
  C8_comma_period_equiv.1 "12,34" "12.34" (by decide)

lemma parse_ok_ne_nil (lines : List String) (r : Parsed)
    (h : parse_sdp_file lines = .ok r) : r.data ≠ [] := by
  unfold parse_sdp_file at h
  cases hscan : scanData none false lines with
  | error e =>
    rw [hscan] at h
    simp at h
  | ok ds =>
    rw [hscan] at h
    simp only [] at h
    by_cases hd : ds = []
    · rw [if_pos hd] at h
      simp at h
    · rw [if_neg hd] at h
      obtain rfl : Parsed.mk (extractConfig [] lines) ds = r := by injection h
      exact hd

end SimpleDyno

namespace SimpleDyno

lemma foldl_max_start_le (f : Sample → ℚ) :
    ∀ (xs : List Sample) (x : Sample),
      f x ≤ f (xs.foldl (fun cur y => if f cur < f y then y else cur) x) := by
  intro xs
  induction xs with
  | nil =>
    intro x
    simp
  | cons y t ih =>
    intro x
    simp only [List.foldl]
    by_cases h : f x < f y
    · rw [if_pos h]
      exact le_of_lt (lt_of_lt_of_le h (ih y))
    · rw [if_neg h]
      exact ih x

lemma pyMaxBy_split (f : Sample → ℚ) :
    ∀ (xs : List Sample) (x : Sample),
      ∃ l₁ l₂, x :: xs = l₁ ++ (xs.foldl (fun cur y => if f cur < f y then y else cur) x) :: l₂ ∧
        (∀ y ∈ l₁, f y < f (xs.foldl (fun cur y => if f cur < f y then y else cur) x)) ∧
        (∀ y ∈ l₂, f y ≤ f (xs.foldl (fun cur y => if f cur < f y then y else cur) x)) := by
  intro xs
  induction xs with
  | nil =>
    intro x
    exact ⟨[], [], rfl, by simp, by simp⟩
  | cons y t ih =>
    intro x
    simp only [List.foldl]
    by_cases h : f x < f y
    · rw [if_pos h]
      obtain ⟨l₁, l₂, heq, hl1, hl2⟩ := ih y
      refine ⟨x :: l₁, l₂, by rw [List.cons_append, ← heq], ?_, hl2⟩
      intro z hz
      rcases List.mem_cons.mp hz with rfl | hz2
      · exact lt_of_lt_of_le h (foldl_max_start_le f t y)
      · exact hl1 z hz2
    · rw [if_neg h]
      obtain ⟨l₁, l₂, heq, hl1, hl2⟩ := ih x
      cases l₁ with
      | nil =>
        simp only [List.nil_append] at heq
        have hres : t.foldl (fun cur y => if f cur < f y then y else cur) x = x := by
          have := List.head_eq_of_cons_eq heq.symm
          exact this
        have htl : l₂ = t := by
          have := List.tail_eq_of_cons_eq heq.symm
          exact this
        refine ⟨[], y :: t, by rw [List.nil_append, hres], by simp, ?_⟩
        intro z hz
        rcases List.mem_cons.mp hz with rfl | hz2
        · rw [hres]
          exact not_lt.mp h
        · exact htl ▸ hl2 z (htl ▸ hz2)
      | cons a l₁t =>
        rw [List.cons_append] at heq
        obtain rfl : x = a := List.head_eq_of_cons_eq heq
        have htl : t = l₁t ++ (t.foldl (fun cur y => if f cur < f y then y else cur) x) :: l₂ :=
          List.tail_eq_of_cons_eq heq
        have hxlt : f x < f (t.foldl (fun cur y => if f cur < f y then y else cur) x) :=
          hl1 x (List.mem_cons_self x l₁t)
        refine ⟨x :: y :: l₁t, l₂, by rw [List.cons_append, List.cons_append, ← htl], ?_, hl2⟩
        intro z hz
        rcases List.mem_cons.mp hz with rfl | hz2
        · exact hxlt
        rcases List.mem_cons.mp hz2 with rfl | hz3
        · exact lt_of_le_of_lt (not_lt.mp h) hxlt
        · exact hl1 z (List.mem_cons_of_mem x hz3)

lemma pyMaxBy_first_max (f : Sample → ℚ) (l : List Sample) (m : Sample)
    (h : pyMaxBy f l = some m) :
    ∃ l₁ l₂, l = l₁ ++ m :: l₂ ∧ (∀ y ∈ l₁, f y < f m) ∧ (∀ y ∈ l₂, f y ≤ f m) := by
  cases l with
  | nil => simp [pyMaxBy] at h
  | cons x xs =>
    obtain rfl : xs.foldl (fun cur y => if f cur < f y then y else cur) x = m := by
      simp only [pyMaxBy] at h
      injection h
    exact pyMaxBy_split f xs x

end SimpleDyno

namespace SimpleDyno

/-- C7: in every report built by `process_file_content`, the peak-power
sample splits the sample sequence into a strictly-smaller-hp prefix and a
no-greater-hp suffix — i.e. it is the first sample attaining the maximum
hp — and likewise the peak-torque sample for torque. -/
theorem C7_peaks_first_max (content : List String) (r : Run)
    (h : process_file_content content = some r) :
    (∃ l₁ l₂, r.raw_data = l₁ ++ r.peak_power :: l₂ ∧
      (∀ y ∈ l₁, y.hp < r.peak_power.hp) ∧ (∀ y ∈ l₂, y.hp ≤ r.peak_power.hp)) ∧
    (∃ l₁ l₂, r.raw_data = l₁ ++ r.peak_torque :: l₂ ∧
      (∀ y ∈ l₁, y.torque < r.peak_torque.torque) ∧
      (∀ y ∈ l₂, y.torque ≤ r.peak_torque.torque)) := by
  unfold process_file_content at h
  cases hp : parse_sdp_file content with
  | error e =>
    rw [hp] at h
    simp at h
  | ok parsed =>
    rw [hp] at h
    simp only [] at h
    by_cases hd : parsed.data = []
    · rw [if_pos hd] at h
      simp at h
    · rw [if_neg hd] at h
      cases hmh : pyMaxBy Sample.hp parsed.data with
      | none =>
        rw [hmh] at h
        simp at h
      | some pp =>
        rw [hmh] at h
        cases hmt : pyMaxBy Sample.torque parsed.data with
        | none =>
          rw [hmt] at h
          simp at h
        | some pt =>
          rw [hmt] at h
          simp only [] at h
          cases h
          exact ⟨pyMaxBy_first_max Sample.hp parsed.data pp hmh,
            pyMaxBy_first_max Sample.torque parsed.data pt hmt⟩

/-- C10: a successful parse always carries a non-empty sample list, so both
`max` calls of the report builder are reached only on non-empty input and
succeed, and report construction always completes. -/
theorem C10_peaks_nonempty_reachable (content : List String) (parsed : Parsed)
    (h : parse_sdp_file content = .ok parsed) :
    parsed.data ≠ [] ∧ (pyMaxBy Sample.hp parsed.data).isSome ∧
    (pyMaxBy Sample.torque parsed.data).isSome ∧
    ∃ r, process_file_content content = some r := by
  have hd : parsed.data ≠ [] := parse_ok_ne_nil content parsed h
  refine ⟨hd, ?_, ?_, ?_⟩
  · cases hdata : parsed.data with
    | nil => exact absurd hdata hd
    | cons x xs => simp [pyMaxBy]
  · cases hdata : parsed.data with
    | nil => exact absurd hdata hd
    | cons x xs => simp [pyMaxBy]
  · unfold process_file_content
    rw [h]
    simp only []
    rw [if_neg hd]
    cases hdata : parsed.data with
    | nil => exact absurd hdata hd
    | cons x xs =>
      simp only [pyMaxBy]
      exact ⟨_, rfl⟩

end SimpleDyno

namespace SimpleDyno

lemma pyRound_5000 : pyRound (5000 : ℚ) = 5000 := by
  have h : (⌊(5000 : ℚ)⌋ : ℤ) = 5000 := by
    rw [Int.floor_eq_iff]
    norm_num
  unfold pyRound
  rw [h]
  norm_num

lemma pyRound_402 : pyRound (402 : ℚ) = 402 := by
  have h : (⌊(402 : ℚ)⌋ : ℤ) = 402 := by
    rw [Int.floor_eq_iff]
    norm_num
  unfold pyRound
  rw [h]
  norm_num

lemma round2_50 : round2 (50 : ℚ) = 50 := by
  rw [round2]
  norm_num [pyRound_5000]

lemma round2_402 : round2 (201 / 50 : ℚ) = 201 / 50 := by
  rw [round2]
  norm_num [pyRound_402]

lemma demo_binKey : binKey 500 (⟨5730, 50, 201 / 50⟩ : Sample) = 5500 := by
  have hf : (⌊(5730 : ℚ) / 500⌋ : ℤ) = 11 := by
    rw [Int.floor_eq_iff]
    norm_num
  unfold binKey
  norm_num [hf]

lemma demo_aggregate :
    aggregate_data_by_rpm [(⟨5730, 50, 201 / 50⟩ : Sample)] 500 = [⟨5500, 50, 201 / 50⟩] := by
  have hkeys : ((([(⟨5730, 50, 201 / 50⟩ : Sample)].map (binKey 500)).dedup).insertionSort
      (· ≤ ·)) = [5500] := by
    simp [demo_binKey, List.insertionSort, List.orderedInsert]
  rw [aggregate_eq _ _ (by simp), hkeys]
  simp [demo_binKey, round2_50, round2_402]

lemma demo_process : process_file_content demoLines = some demoRun := by
  unfold process_file_content
  rw [demo_parse]
  simp only []
  rw [if_neg (by simp [demoParsed, demoSample])]
  simp [demoParsed, demoSample, pyMaxBy, demoRun, demo_aggregate]

theorem C7_peaks_first_max_witness :
    (∃ l₁ l₂, demoRun.raw_data = l₁ ++ demoRun.peak_power :: l₂ ∧
      (∀ y ∈ l₁, y.hp < demoRun.peak_power.hp) ∧
      (∀ y ∈ l₂, y.hp ≤ demoRun.peak_power.hp)) ∧
    (∃ l₁ l₂, demoRun.raw_data = l₁ ++ demoRun.peak_torque :: l₂ ∧
      (∀ y ∈ l₁, y.torque < demoRun.peak_torque.torque) ∧
      (∀ y ∈ l₂, y.torque ≤ demoRun.peak_torque.torque)) :=
  C7_peaks_first_max demoLines demoRun demo_process

theorem C10_peaks_nonempty_reachable_witness :
    demoParsed.data ≠ [] ∧ (pyMaxBy Sample.hp demoParsed.data).isSome ∧
    (pyMaxBy Sample.torque demoParsed.data).isSome ∧
    ∃ r, process_file_content demoLines = some r :=
  C10_peaks_nonempty_reachable demoLines demoParsed demo_parse

end SimpleDyno
